import Mathlib

/-!
Verification development for the Hyper-Alpha-Arena frontend fragment:
the SSE stream-decode loop of the AI signal chat modal
(src/frontend/app/components/signal/AiSignalChatModal.tsx) and the
mobile trades list renderer
(src/frontend/app/components/mobile/MobileTradesSection.tsx).

The TypeScript code is shallowly embedded: strings are `List Char`,
bytes are `Nat` (values < 256), JSON values are an inductive `Json`,
JavaScript `undefined` is `Option.none`, and the stateful React code is
modelled as explicit state passing (a fold of a step function over the
decoded records).  Runtime pieces that are not part of the repository
(the WHATWG `TextDecoder` in streaming mode, `JSON.parse`) are
implemented directly after their standard behaviour; display-only
details that no claim touches (JS float formatting, locale date
formatting) are noted where they are approximated.
-/

set_option maxRecDepth 10000

/-! ## JSON values (runtime representation of parsed `data:` payloads) -/

/-- A JSON value as produced by JSON.parse.  Numbers are kept exactly as
a decimal mantissa and a power-of-ten exponent (`mant * 10 ^ exp10`),
which is faithful for every literal of the number grammar and avoids
floating point.  Object fields keep their textual order; duplicate keys
are kept and lookup takes the last one, as JSON.parse does. -/
inductive Json where
  | null : Json
  | bool : Bool → Json
  | num : Int → Int → Json
  | str : List Char → Json
  | arr : List Json → Json
  | obj : List (List Char × Json) → Json

/-- JavaScript truthiness of a JSON value.  `null`, `false`, `0` and the
empty string are falsy; arrays and objects are always truthy. -/
def Json.truthy : Json → Bool
  | .null => false
  | .bool b => b
  | .num m _ => decide (m ≠ 0)
  | .str s => decide (s ≠ [])
  | .arr _ => true
  | .obj _ => true

/-- JavaScript truthiness of a possibly-undefined value
(`undefined` is falsy). -/
def jsTruthy : Option Json → Bool
  | none => false
  | some j => j.truthy

/-- Property access `data.k` on an arbitrary runtime value: on objects
the last binding of the key wins (JSON.parse keeps the last duplicate);
on every other value the result is `undefined` (`none`). -/
def Json.get? : Json → List Char → Option Json
  | .obj fs, k => (fs.reverse.find? (fun p => decide (p.1 = k))).map (fun p => p.2)
  | _, _ => none

/-! ## JSON.parse

A recursive-descent parser for the JSON grammar, used by the embedded
decode loop exactly where the source calls JSON.parse on a `data:`
line.  Nesting recursion is bounded by a fuel argument; the entry point
supplies more fuel than any input of the given length can consume, so
fuel exhaustion is unreachable there. -/

/-- JSON insignificant whitespace. -/
def isJsonWs (c : Char) : Bool :=
  decide (c = ' ') || decide (c = '\t') || decide (c = '\n') || decide (c = '\r')

/-- Drop leading JSON whitespace. -/
def skipWs (s : List Char) : List Char := s.dropWhile isJsonWs

/-- Decimal digit test. -/
def isDigitCh (c : Char) : Bool := decide ('0' ≤ c) && decide (c ≤ '9')

/-- Value of a hexadecimal digit, if it is one. -/
def hexVal (c : Char) : Option Nat :=
  if isDigitCh c then some (c.toNat - 48)
  else if decide ('a' ≤ c) && decide (c ≤ 'f') then some (c.toNat - 87)
  else if decide ('A' ≤ c) && decide (c ≤ 'F') then some (c.toNat - 55)
  else none

/-- Body of a JSON string literal, after the opening quote.  Returns the
decoded characters and the rest of the input after the closing quote.
Unicode escapes become the character with that code point (an escape
that does not denote a valid scalar value degrades to the null
character; surrogate-pair combination is not replicated — no claim
touches it).  Raw control characters are rejected, as JSON.parse
rejects them. -/
def parseStringBody : List Char → Option (List Char × List Char)
  | [] => none
  | '"' :: rest => some ([], rest)
  | '\\' :: 'u' :: a :: b :: c :: d :: rest => do
    let ha ← hexVal a
    let hb ← hexVal b
    let hc ← hexVal c
    let hd ← hexVal d
    let (cs, r) ← parseStringBody rest
    pure (Char.ofNat (((ha * 16 + hb) * 16 + hc) * 16 + hd) :: cs, r)
  | '\\' :: e :: rest => do
    let ch ← match e with
      | '"' => some '"'
      | '\\' => some '\\'
      | '/' => some '/'
      | 'b' => some (Char.ofNat 8)
      | 'f' => some (Char.ofNat 12)
      | 'n' => some '\n'
      | 'r' => some '\r'
      | 't' => some '\t'
      | _ => none
    let (cs, r) ← parseStringBody rest
    pure (ch :: cs, r)
  | c :: rest =>
    if c.toNat < 32 then none
    else do
      let (cs, r) ← parseStringBody rest
      pure (c :: cs, r)

/-- Numeric value of a list of decimal digit characters. -/
def digitsVal (s : List Char) : Nat := s.foldl (fun a c => 10 * a + (c.toNat - 48)) 0

/-- Parse a JSON number literal (sign, integer part without leading
zeros, optional fraction, optional exponent), returning its exact value
as mantissa and power-of-ten exponent. -/
def parseNumber (s : List Char) : Option (Json × List Char) :=
  let (neg, s1) := match s with
    | '-' :: r => (true, r)
    | _ => (false, s)
  let intDigits := s1.takeWhile isDigitCh
  let s2 := s1.dropWhile isDigitCh
  if intDigits = [] then none
  else if 1 < intDigits.length && intDigits.head? = some '0' then none
  else
    let (fracDigits, s3) := match s2 with
      | '.' :: r =>
        (r.takeWhile isDigitCh, if r.takeWhile isDigitCh = [] then [] else r.dropWhile isDigitCh)
      | _ => ([], s2)
    if s2.head? = some '.' && fracDigits = [] then none
    else
      let (expOk, expNeg, expDigits, s4) := match s3 with
        | 'e' :: '+' :: r => (decide (r.takeWhile isDigitCh ≠ []), false, r.takeWhile isDigitCh, r.dropWhile isDigitCh)
        | 'e' :: '-' :: r => (decide (r.takeWhile isDigitCh ≠ []), true, r.takeWhile isDigitCh, r.dropWhile isDigitCh)
        | 'e' :: r => (decide (r.takeWhile isDigitCh ≠ []), false, r.takeWhile isDigitCh, r.dropWhile isDigitCh)
        | 'E' :: '+' :: r => (decide (r.takeWhile isDigitCh ≠ []), false, r.takeWhile isDigitCh, r.dropWhile isDigitCh)
        | 'E' :: '-' :: r => (decide (r.takeWhile isDigitCh ≠ []), true, r.takeWhile isDigitCh, r.dropWhile isDigitCh)
        | 'E' :: r => (decide (r.takeWhile isDigitCh ≠ []), false, r.takeWhile isDigitCh, r.dropWhile isDigitCh)
        | _ => (true, false, [], s3)
      if !expOk then none
      else
        let mantNat : Nat := digitsVal (intDigits ++ fracDigits)
        let mant : Int := if neg then -(mantNat : Int) else (mantNat : Int)
        let expVal : Int := if expNeg then -((digitsVal expDigits : Int)) else (digitsVal expDigits : Int)
        some (.num mant (expVal - fracDigits.length), s4)

mutual

/-- Parse one JSON value (fuel-bounded). -/
def parseValue : Nat → List Char → Option (Json × List Char)
  | 0, _ => none
  | fuel + 1, s =>
    match skipWs s with
    | 'n' :: 'u' :: 'l' :: 'l' :: r => some (.null, r)
    | 't' :: 'r' :: 'u' :: 'e' :: r => some (.bool true, r)
    | 'f' :: 'a' :: 'l' :: 's' :: 'e' :: r => some (.bool false, r)
    | '"' :: r => (parseStringBody r).map (fun p => (.str p.1, p.2))
    | '[' :: r =>
      (match skipWs r with
       | ']' :: r2 => some (.arr [], r2)
       | _ => (parseElems fuel r).map (fun p => (.arr p.1, p.2)))
    | '{' :: r =>
      (match skipWs r with
       | '}' :: r2 => some (.obj [], r2)
       | _ => (parseMembers fuel r).map (fun p => (.obj p.1, p.2)))
    | s1 => parseNumber s1

/-- Parse the elements of a non-empty JSON array, consuming the closing
bracket (fuel-bounded). -/
def parseElems : Nat → List Char → Option (List Json × List Char)
  | 0, _ => none
  | fuel + 1, s => do
    let (v, r) ← parseValue fuel s
    match skipWs r with
    | ',' :: r2 => do
      let (vs, r3) ← parseElems fuel r2
      pure (v :: vs, r3)
    | ']' :: r2 => pure ([v], r2)
    | _ => none

/-- Parse the members of a non-empty JSON object, consuming the closing
brace (fuel-bounded). -/
def parseMembers : Nat → List Char → Option (List (List Char × Json) × List Char)
  | 0, _ => none
  | fuel + 1, s => do
    match skipWs s with
    | '"' :: r => do
      let (k, r1) ← parseStringBody r
      match skipWs r1 with
      | ':' :: r2 => do
        let (v, r3) ← parseValue fuel r2
        match skipWs r3 with
        | ',' :: r4 => do
          let (ms, r5) ← parseMembers fuel r4
          pure ((k, v) :: ms, r5)
        | '}' :: r4 => pure ([(k, v)], r4)
        | _ => none
      | _ => none
    | _ => none

end

/-- JSON.parse: parse a complete JSON document; trailing content other
than whitespace is an error. -/
def parseJson (s : List Char) : Option Json :=
  match parseValue (2 * s.length + 4) s with
  | some (v, rest) => if skipWs rest = [] then some v else none
  | none => none

/-! ## TextDecoder (streaming UTF-8)

The decode loop reads the response body with
`decoder.decode(value, { stream: true })`.  `TextDecoder` is a runtime
API, not repository code; it is embedded here as the WHATWG UTF-8
decoder — a byte-at-a-time state machine that holds the prefix of an
incomplete multi-byte sequence across chunk boundaries and emits
U+FFFD for malformed input. -/

/-- State of the WHATWG streaming UTF-8 decoder. -/
structure DecState where
  codePoint : Nat
  bytesNeeded : Nat
  bytesSeen : Nat
  lowerBoundary : Nat
  upperBoundary : Nat
deriving DecidableEq, Repr

/-- Initial decoder state. -/
def initDec : DecState := ⟨0, 0, 0, 0x80, 0xBF⟩

/-- One byte fed to the decoder in its initial state.  Returns the next
state and the emitted characters. -/
def utf8StepInit (b : Nat) : DecState × List Char :=
  if b ≤ 0x7F then (initDec, [Char.ofNat b])
  else if 0xC2 ≤ b ∧ b ≤ 0xDF then (⟨b % 32, 1, 0, 0x80, 0xBF⟩, [])
  else if 0xE0 ≤ b ∧ b ≤ 0xEF then
    (⟨b % 16, 2, 0, if b = 0xE0 then 0xA0 else 0x80, if b = 0xED then 0x9F else 0xBF⟩, [])
  else if 0xF0 ≤ b ∧ b ≤ 0xF4 then
    (⟨b % 8, 3, 0, if b = 0xF0 then 0x90 else 0x80, if b = 0xF4 then 0x8F else 0xBF⟩, [])
  else (initDec, [Char.ofNat 0xFFFD])

/-- One byte fed to the decoder.  A byte outside the continuation range
emits U+FFFD and is reprocessed from the initial state, as the WHATWG
algorithm prescribes. -/
def utf8Step (d : DecState) (b : Nat) : DecState × List Char :=
  if d.bytesNeeded = 0 then utf8StepInit b
  else if d.lowerBoundary ≤ b ∧ b ≤ d.upperBoundary then
    let cp := d.codePoint * 64 + b % 64
    if d.bytesSeen + 1 = d.bytesNeeded then (initDec, [Char.ofNat cp])
    else (⟨cp, d.bytesNeeded, d.bytesSeen + 1, 0x80, 0xBF⟩, [])
  else
    let r := utf8StepInit b
    (r.1, Char.ofNat 0xFFFD :: r.2)

/-- Decode a whole chunk of bytes, threading the decoder state
(`decoder.decode(value, { stream: true })`). -/
def decodeChunk : DecState → List Nat → DecState × List Char
  | d, [] => (d, [])
  | d, b :: bs =>
    let s := utf8Step d b
    let r := decodeChunk s.1 bs
    (r.1, s.2 ++ r.2)

/-! ## Line buffering

The loop body does `buffer += decoded; const lines = buffer.split('\n');
buffer = lines.pop() || ''` and processes `lines`.  `splitLines`
computes exactly that pair: the complete (newline-terminated) lines and
the trailing remainder that becomes the new carry-over buffer. -/

/-- Split into complete lines and the trailing segment after the last
newline: `splitLines s = (lines, rest)` is `s.split('\n')` with the
last element popped off into `rest`. -/
def splitLines : List Char → List (List Char) × List Char
  | [] => ([], [])
  | c :: cs =>
    let r := splitLines cs
    if c = '\n' then ([] :: r.1, r.2)
    else
      match r.1 with
      | [] => ([], c :: r.2)
      | l :: ls => ((c :: l) :: ls, r.2)

/-! ## Decimal rendering of numbers (JS template literals and keys) -/

/-- The character of a decimal digit. -/
def digitCh (d : Nat) : Char :=
  match d with
  | 0 => '0' | 1 => '1' | 2 => '2' | 3 => '3' | 4 => '4'
  | 5 => '5' | 6 => '6' | 7 => '7' | 8 => '8' | _ => '9'

/-- Decimal rendering of a natural number, as JS string conversion
produces for integer indices. -/
def natToChars (n : Nat) : List Char :=
  if _h : n < 10 then [digitCh n]
  else natToChars (n / 10) ++ [digitCh (n % 10)]
decreasing_by exact Nat.div_lt_self (by omega) (by omega)

/-- Numeric value of a decimal rendering (left inverse of
`natToChars`). -/
def charsVal (s : List Char) : Nat := s.foldl (fun a c => 10 * a + (c.toNat - 48)) 0

/-- JS string conversion of a runtime value, as a template literal
performs (display only; the decimal rendering of non-integer numbers is
approximated by mantissa/exponent, which no claim observes). -/
def jsToChars : Json → List Char
  | .null => "null".toList
  | .bool true => "true".toList
  | .bool false => "false".toList
  | .num m e =>
    (if m < 0 then ['-'] else []) ++ natToChars m.natAbs ++
      (if e = 0 then [] else 'e' :: (if e < 0 then ['-'] else []) ++ natToChars e.natAbs)
  | .str s => s
  | .arr l => List.intercalate [','] (l.attach.map (fun x => jsToChars x.1))
  | .obj _ => "[object Object]".toList
decreasing_by
  have := List.sizeOf_lt_of_mem x.2
  simp only [Json.arr.sizeOf_spec]
  omega

/-- JS string conversion of a possibly-undefined value. -/
def jsToCharsOpt : Option Json → List Char
  | none => "undefined".toList
  | some j => jsToChars j

/-! ## Chat messages and the stream state -/

/-- Message role. -/
inductive Role where
  | user : Role
  | assistant : Role
deriving DecidableEq, Repr

/-- Kind of an analysis-log entry. -/
inductive EntryKind where
  | reasoning : EntryKind
  | toolCall : EntryKind
  | toolResult : EntryKind
deriving DecidableEq, Repr

/-- An entry of the streaming analysis log (interface AnalysisEntry;
the optional fields hold the raw payload values). -/
structure AnalysisEntry where
  etype : EntryKind
  content : Option (List Char)
  name : Option Json
  arguments : Option Json
  result : Option Json

/-- A chat message (interface Message).  `none` models a JS field that
is `undefined`; `content` and `statusText` hold raw runtime values
because the stream writes unchecked payload data into them.
`analysisLog` is kept as a plain list: the code always reads it through
`m.analysisLog || []`, under which a missing log and an empty log are
indistinguishable. -/
structure Message where
  id : Int
  role : Role
  content : Option Json
  signal_configs : Option Json
  isStreaming : Option Bool
  statusText : Option Json
  analysisLog : List AnalysisEntry

/-- The record handed to the `onUpdate` callback by `handleSSEEvent`; a
`none` field models a property that is absent or set to `undefined`
(indistinguishable in JS). -/
structure Updates where
  content : Option Json
  signalConfigs : Option Json
  conversationId : Option Json
  messageId : Option Json

/-- The empty update record. -/
def noUpd : Updates := ⟨none, none, none, none⟩

/-- The state threaded through the decode loop apart from the decoder
and the carry-over buffer: the pending event type, the rendered message
list, the raised toasts, the `final*` accumulators of `sendMessage`, and
the fixed id of the placeholder assistant message. -/
structure CoreState where
  currentEventType : List Char
  messages : List Message
  toasts : List Json
  finalContent : Json
  finalSignalConfigs : Json
  finalConversationId : Json
  finalMessageId : Json
  msgId : Int

/-- Map the one message with the given id through `g`, leaving every
other message unchanged — the `setMessages(prev => prev.map(m => m.id
=== msgId ? ... : m))` pattern. -/
def updMsg (mid : Int) (g : Message → Message) (msgs : List Message) : List Message :=
  msgs.map (fun m => if m.id = mid then g m else m)

/-- `handleSSEEvent`: dispatch one decoded record by event type.
Returns the new message list, the new toast list, and the update record
passed to `onUpdate`.  The `reasoning` branch reads
`data.content as string || ''`; a truthy non-string payload would raise
a TypeError at `.slice` in the original and is modelled as the empty
string (no claim reaches it). -/
def handleSSEEvent (msgs : List Message) (toasts : List Json)
    (eventType : List Char) (data : Json) (msgId : Int) :
    List Message × List Json × Updates :=
  if eventType = "status".toList then
    (updMsg msgId (fun m => { m with statusText := data.get? "message".toList }) msgs,
     toasts, noUpd)
  else if eventType = "reasoning".toList then
    let reasoning : List Char := match data.get? "content".toList with
      | some (.str s) => s
      | _ => []
    let entry : AnalysisEntry := ⟨.reasoning, some reasoning, none, none, none⟩
    (updMsg msgId (fun m =>
        { m with statusText := some (.str ("Thinking: ".toList ++ reasoning.take 80 ++ "...".toList)),
                 analysisLog := m.analysisLog ++ [entry] }) msgs,
     toasts, noUpd)
  else if eventType = "content".toList then
    let content := data.get? "content".toList
    (updMsg msgId (fun m => { m with content := content, statusText := none }) msgs,
     toasts, ⟨content, none, none, none⟩)
  else if eventType = "signal_config".toList then
    match data.get? "config".toList with
    | some config =>
      if config.truthy then (msgs, toasts, ⟨none, some (.arr [config]), none, none⟩)
      else (msgs, toasts, noUpd)
    | none => (msgs, toasts, noUpd)
  else if eventType = "done".toList then
    (msgs, toasts,
     ⟨data.get? "content".toList, data.get? "signal_configs".toList,
      data.get? "conversation_id".toList, data.get? "message_id".toList⟩)
  else if eventType = "error".toList then
    let msg := match data.get? "message".toList with
      | some j => if j.truthy then j else .str "AI generation failed".toList
      | none => .str "AI generation failed".toList
    (msgs, toasts ++ [msg], noUpd)
  else if eventType = "tool_call".toList then
    let entry : AnalysisEntry :=
      ⟨.toolCall, none, data.get? "name".toList, data.get? "arguments".toList, none⟩
    (updMsg msgId (fun m =>
        { m with statusText := some (.str ("Calling ".toList ++ jsToCharsOpt (data.get? "name".toList) ++ "...".toList)),
                 analysisLog := m.analysisLog ++ [entry] }) msgs,
     toasts, noUpd)
  else if eventType = "tool_result".toList then
    let entry : AnalysisEntry :=
      ⟨.toolResult, none, data.get? "name".toList, none, data.get? "result".toList⟩
    (updMsg msgId (fun m =>
        { m with statusText := some (.str ("Got result from ".toList ++ jsToCharsOpt (data.get? "name".toList))),
                 analysisLog := m.analysisLog ++ [entry] }) msgs,
     toasts, noUpd)
  else (msgs, toasts, noUpd)

/-- The `onUpdate` closure of `sendMessage`: merge an update record into
the `final*` accumulators.  `content` is adopted when the property is
not `undefined`; the other three only when truthy — in particular each
`signal_config` update REPLACES the accumulator with its one-element
array. -/
def applyUpdates (c : CoreState) (u : Updates) : CoreState :=
  let c1 := match u.content with
    | some v => { c with finalContent := v }
    | none => c
  let c2 := match u.signalConfigs with
    | some v => if v.truthy then { c1 with finalSignalConfigs := v } else c1
    | none => c1
  let c3 := match u.conversationId with
    | some v => if v.truthy then { c2 with finalConversationId := v } else c2
    | none => c2
  match u.messageId with
  | some v => if v.truthy then { c3 with finalMessageId := v } else c3
  | none => c3

/-- JS String.prototype.trim whitespace (the ASCII subset; the exotic
Unicode space characters never occur in an event-type token). -/
def isJsWs (c : Char) : Bool :=
  decide (c = ' ') || decide (c = '\t') || decide (c = '\n') || decide (c = '\r') ||
    decide (c = Char.ofNat 11) || decide (c = Char.ofNat 12)

/-- `s.trim()`. -/
def trimChars (s : List Char) : List Char :=
  ((s.dropWhile isJsWs).reverse.dropWhile isJsWs).reverse

/-- Process one complete line of the stream, exactly as the `for (const
line of lines)` body does: an `event: ` line sets the pending event
type; a `data: ` line is parsed as JSON and dispatched (a parse failure
is swallowed by the empty catch), after which the pending event type is
reset; any other line is ignored. -/
def processLine (c : CoreState) (line : List Char) : CoreState :=
  if ("event: ".toList).isPrefixOf line then
    { c with currentEventType := trimChars (line.drop 7) }
  else if ("data: ".toList).isPrefixOf line then
    match parseJson (line.drop 6) with
    | some data =>
      let r := handleSSEEvent c.messages c.toasts c.currentEventType data c.msgId
      let c1 := applyUpdates { c with messages := r.1, toasts := r.2.1 } r.2.2
      { c1 with currentEventType := [] }
    | none => { c with currentEventType := [] }
  else c

/-- Full state of the decode loop: decoder state, carry-over buffer and
the core state. -/
structure StreamState where
  decoder : DecState
  buffer : List Char
  core : CoreState

/-- Feed one network chunk through one iteration of the `while (true)`
loop body: incrementally decode the bytes, append to the buffer, split
off the complete lines, keep the trailing segment as the new buffer and
process the complete lines in order. -/
def feedBytes (st : StreamState) (bs : List Nat) : StreamState :=
  let d := decodeChunk st.decoder bs
  let p := splitLines (st.buffer ++ d.2)
  ⟨d.1, p.2, p.1.foldl processLine st.core⟩

/-- Run the decode loop over a sequence of network chunks. -/
def runStream (st : StreamState) (chunks : List (List Nat)) : StreamState :=
  chunks.foldl feedBytes st

/-! ## The surrounding `sendMessage` control flow -/

/-- UI-level session state touched by `sendMessage`: the message list,
the aggregate config list shown in the cards panel, the current
conversation id (a raw runtime value, `null` before a conversation is
adopted) and the raised toasts. -/
structure SessionState where
  messages : List Message
  allSignalConfigs : List Json
  currentConversationId : Json
  toasts : List Json

/-- Outcome of the network request of one `sendMessage` call: a
streamed body delivered as byte chunks, an HTTP error, a missing body,
a network failure before any read, or a stream that fails after
delivering some chunks. -/
inductive SendOutcome where
  | success (chunks : List (List Nat)) : SendOutcome
  | httpError : SendOutcome
  | noBody : SendOutcome
  | networkError : SendOutcome
  | streamError (chunks : List (List Nat)) : SendOutcome

/-- Whether the outcome takes the catch path of `sendMessage`. -/
def SendOutcome.isFailure : SendOutcome → Bool
  | .success _ => false
  | _ => true

/-- The optimistic user message appended at send time. -/
def tempUserMsg (now : Int) (utext : List Char) : Message :=
  ⟨now, .user, some (.str utext), none, none, none, []⟩

/-- The placeholder assistant message appended at send time: id fixed to
the user id + 1, marked streaming with status "Connecting...". -/
def tempAssistantMsg (now : Int) : Message :=
  ⟨now + 1, .assistant, some (.str []), none, some true,
   some (.str "Connecting...".toList), []⟩

/-- Core state at the start of the decode loop: both optimistic
messages appended, empty pending event type and the `final*`
accumulators at their declared initial values. -/
def initCore (pre : List Message) (toasts : List Json) (now : Int) (utext : List Char) : CoreState :=
  ⟨[], pre ++ [tempUserMsg now utext, tempAssistantMsg now], toasts,
   .str [], .arr [], .null, .null, now + 1⟩

/-- Loop state at the start of the decode loop. -/
def initStream (pre : List Message) (toasts : List Json) (now : Int) (utext : List Char) : StreamState :=
  ⟨initDec, [], initCore pre toasts now utext⟩

/-- `finalSignalConfigs.length > 0`: JS `.length` exists on arrays and
strings; on every other value the comparison is false. -/
def jsLenPos : Json → Bool
  | .arr l => decide (0 < l.length)
  | .str s => decide (0 < s.length)
  | _ => false

/-- JS array spread of the accumulator into the aggregate list
(reachable only for arrays and strings, the values with a positive
`.length`). -/
def jsSpread : Json → List Json
  | .arr l => l
  | .str s => s.map (fun ch => .str [ch])
  | _ => []

/-- The message filter of the catch path: drop both optimistic
messages. -/
def dropTempMsgs (now : Int) (msgs : List Message) : List Message :=
  msgs.filter (fun m => decide (m.id ≠ now) && decide (m.id ≠ now + 1))

/-- The toast raised by the catch path. -/
def failToast : Json := .str "Failed to send message".toList

/-- Post-loop finalization of a successful stream: replace the
placeholder message by its finalized form, extend the aggregate config
list when the accumulator has positive length, and adopt the returned
conversation id when none was selected (the conversation refetch it
triggers is an external call outside this fragment). -/
def finalizeSend (s : SessionState) (st : StreamState) : SessionState :=
  let c := st.core
  ⟨updMsg c.msgId (fun m =>
      { m with content := some c.finalContent,
               signal_configs := some c.finalSignalConfigs,
               isStreaming := some false, statusText := none }) c.messages,
   if jsLenPos c.finalSignalConfigs then s.allSignalConfigs ++ jsSpread c.finalSignalConfigs
   else s.allSignalConfigs,
   if !s.currentConversationId.truthy && c.finalConversationId.truthy
   then c.finalConversationId else s.currentConversationId,
   c.toasts⟩

/-- One `sendMessage` call, after the empty-input/no-account guard:
append the optimistic messages, then either run the decode loop and
finalize, or take the catch path, which drops both optimistic messages
and raises an error toast. -/
def sendMessage (s : SessionState) (now : Int) (utext : List Char) (o : SendOutcome) : SessionState :=
  let core0 := initCore s.messages s.toasts now utext
  match o with
  | .success chunks => finalizeSend s (runStream ⟨initDec, [], core0⟩ chunks)
  | .streamError chunks =>
    let st := runStream ⟨initDec, [], core0⟩ chunks
    ⟨dropTempMsgs now st.core.messages, s.allSignalConfigs, s.currentConversationId,
     st.core.toasts ++ [failToast]⟩
  | _ =>
    ⟨dropTempMsgs now core0.messages, s.allSignalConfigs, s.currentConversationId,
     s.toasts ++ [failToast]⟩

/-! ## Signal configurations and the cards panel

The card components read configs through the declared SignalConfig
interface.  Optional interface fields are `Option`; `name` is kept as a
plain string because the code only ever reads it through `config.name
|| fallback`, under which a missing name and an empty name are
indistinguishable. -/

/-- Exact decimal number, as carried by a parsed config field
(`mant * 10 ^ exp10`). -/
structure JNum where
  mant : Int
  exp10 : Int
deriving DecidableEq, Repr

/-- The `trigger_condition` field of a single-signal config.  `metric`
is `Option` because the runtime value comes from an unchecked cast and
the `{}` fallback has no metric at all. -/
structure TriggerCondition where
  metric : Option (List Char)
  operator : Option (List Char)
  threshold : Option JNum
  time_window : Option (List Char)
  direction : Option (List Char)
  ratio_threshold : Option JNum
  volume_threshold : Option JNum
deriving DecidableEq, Repr

/-- A member signal of a pool config. -/
structure PoolSignal where
  metric : Option (List Char)
  operator : Option (List Char)
  threshold : Option JNum
  time_window : Option (List Char)
deriving DecidableEq, Repr

/-- interface SignalConfig. -/
structure SignalConfig where
  name : List Char
  symbol : List Char
  description : Option (List Char)
  _type : Option (List Char)
  trigger_condition : Option TriggerCondition
  logic : Option (List Char)
  signals : Option (List PoolSignal)
deriving DecidableEq, Repr

/-- JS truthiness of an optional string field (`undefined` and the
empty string are both falsy). -/
def strTruthy : Option (List Char) → Bool
  | some s => decide (s ≠ [])
  | none => false

/-- The `{}` fallback of `config.trigger_condition || {}`. -/
def emptyCond : TriggerCondition := ⟨none, none, none, none, none, none, none⟩

/-- Computed validity of a single-signal card (SignalCard): the code's
`hasValidMetric && (isTakerVolume || (cond.operator && cond.threshold
!== undefined))`. -/
def isValidSignal (config : SignalConfig) : Bool :=
  let cond := config.trigger_condition.getD emptyCond
  let isTakerVolume := decide (cond.metric = some "taker_volume".toList)
  let hasValidMetric := strTruthy cond.metric
  hasValidMetric && (isTakerVolume || (strTruthy cond.operator && cond.threshold.isSome))

/-- Computed validity of a pool card (SignalPoolCard): `signals.length >
0 && signals.every(s => s.metric && s.operator && s.threshold !==
undefined)`. -/
def isValidPool (config : SignalConfig) : Bool :=
  let signals := config.signals.getD []
  decide (0 < signals.length) &&
    signals.all (fun s => strTruthy s.metric && strTruthy s.operator && s.threshold.isSome)

/-- The spec's validity of a single-signal config, written from its
words: valid iff the trigger condition has a metric (an empty metric
string counts as no metric) and either that metric is taker_volume or
the condition has both an operator and a threshold. -/
def specValidSignal (config : SignalConfig) : Bool :=
  match config.trigger_condition with
  | none => false
  | some cond =>
    match cond.metric with
    | none => false
    | some m =>
      decide (m ≠ []) &&
        (decide (m = "taker_volume".toList) ||
          (strTruthy cond.operator && cond.threshold.isSome))

/-- The spec's validity of a pool config, written from its words: valid
iff there is at least one member signal and every member has a metric,
an operator and a threshold. -/
def specValidPool (config : SignalConfig) : Bool :=
  match config.signals with
  | none => false
  | some signals =>
    decide (signals ≠ []) &&
      signals.all (fun s => strTruthy s.metric && strTruthy s.operator && s.threshold.isSome)

/-- Per-card creation key as computed at the render site:
`config.name || 'signal-' + idx`. -/
def keyAt (configs : List SignalConfig) (i : Nat) : List Char :=
  match configs[i]? with
  | some c => if c.name ≠ [] then c.name else "signal-".toList ++ natToChars i
  | none => []

/-- Per-card creation key as recomputed inside `handleCreate`:
`config.name || 'signal-' + configs.indexOf(config)` (on the calling
component the config is an element of the list, where `indexOf` is its
first position). -/
def signalKeyOf (configs : List SignalConfig) (config : SignalConfig) : List Char :=
  if config.name ≠ [] then config.name
  else "signal-".toList ++ natToChars (configs.indexOf config)

/-- Outcome of the create callback's promise. -/
inductive CreateOutcome where
  | resolveTrue : CreateOutcome
  | resolveFalse : CreateOutcome
  | reject : CreateOutcome
deriving DecidableEq, Repr

/-- The two per-panel bookkeeping sets. -/
structure PanelState where
  creatingSignals : Finset (List Char)
  createdSignals : Finset (List Char)

/-- `handleCreate`: add the key to the creating set, run the callback,
add the key to the created set when it resolves true, and in the
`finally` always remove the key from the creating set (also when the
promise rejects, in which case the exception propagates afterwards). -/
def handleCreate (ps : PanelState) (configs : List SignalConfig)
    (config : SignalConfig) (o : CreateOutcome) : PanelState :=
  let k := signalKeyOf configs config
  let ps1 : PanelState := ⟨insert k ps.creatingSignals, ps.createdSignals⟩
  let ps2 : PanelState := match o with
    | .resolveTrue => ⟨ps1.creatingSignals, insert k ps1.createdSignals⟩
    | _ => ps1
  ⟨ps2.creatingSignals.erase k, ps2.createdSignals⟩

/-! ## Mobile trades list -/

/-- A bracket order related to a trade. -/
structure RelatedOrder where
  type : List Char
  price : Option JNum
  quantity : Option JNum
deriving DecidableEq, Repr

/-- interface ArenaTrade (the fields the renderer reads; numeric and
date formatting are display-only and outside the claims). -/
structure ArenaTrade where
  trade_id : Int
  trade_time : Option (List Char)
  account_name : List Char
  symbol : List Char
  side : List Char
  price : Option JNum
  quantity : Option JNum
  notional : Option JNum
  signal_trigger_id : Option Int
  prompt_template_name : Option (List Char)
  related_orders : Option (List RelatedOrder)
deriving DecidableEq, Repr

/-- The list of trades the TradesSection renders one card for:
`trades.slice(0, 20)`, in order. -/
def renderTrades (trades : List ArenaTrade) : List ArenaTrade :=
  trades.take 20

/-! ## Concrete streams used as test inputs -/

/-- ASCII encoding of a character list (all concrete test streams are
ASCII, where UTF-8 is the identity on code points). -/
def asciiBytes (s : List Char) : List Nat := s.map Char.toNat

/-- A fresh session: no messages, no configs, no conversation. -/
def emptySession : SessionState := ⟨[], [], .null, []⟩

/-- The config value `\x7b"name":"a"\x7d`. -/
def cfgNameA : Json := .obj [("name".toList, .str "a".toList)]

/-- The config value `\x7b"name":"b"\x7d`. -/
def cfgNameB : Json := .obj [("name".toList, .str "b".toList)]

/-- A stream of two well-formed `signal_config` records (configs named
"a" then "b") and no `done` record. -/
def twoConfigChunk : List Nat := asciiBytes
  ("event: signal_config\ndata: \x7b\"config\":\x7b\"name\":\"a\"\x7d\x7d\nevent: signal_config\ndata: \x7b\"config\":\x7b\"name\":\"b\"\x7d\x7d\n".toList)

/-- The config value `\x7b"name":"c","symbol":"B"\x7d` carried by the done
record of the spec's example stream. -/
def cfgC : Json := .obj [("name".toList, .str "c".toList), ("symbol".toList, .str "B".toList)]

/-- The spec's example stream: records `status:"A"`, `content:"hello"`,
`done:\x7bcontent:"hello", signal_configs:[cfg], conversation_id:7,
message_id:42\x7d`. -/
def specExampleChunk : List Nat := asciiBytes
  ("event: status\ndata: \x7b\"message\":\"A\"\x7d\n\nevent: content\ndata: \x7b\"content\":\"hello\"\x7d\n\nevent: done\ndata: \x7b\"content\":\"hello\",\"signal_configs\":[\x7b\"name\":\"c\",\"symbol\":\"B\"\x7d],\"conversation_id\":7,\"message_id\":42\x7d\n".toList)

/-- A single-signal config named "a" on symbol "X". -/
def cfgSigAX : SignalConfig :=
  ⟨"a".toList, "X".toList, none, none,
   some ⟨some "oi".toList, some "greater_than".toList, some ⟨1, 0⟩, none, none, none, none⟩,
   none, none⟩

/-- A single-signal config named "a" on symbol "Y" (distinct config,
same name). -/
def cfgSigAY : SignalConfig :=
  ⟨"a".toList, "Y".toList, none, none,
   some ⟨some "cvd".toList, some "less_than".toList, some ⟨2, 0⟩, none, none, none, none⟩,
   none, none⟩

/-- An unnamed single-signal config on symbol "X". -/
def cfgUnnamedX : SignalConfig :=
  ⟨[], "X".toList, none, none,
   some ⟨some "oi".toList, some "greater_than".toList, some ⟨1, 0⟩, none, none, none, none⟩,
   none, none⟩

/-- An unnamed single-signal config on symbol "Y". -/
def cfgUnnamedY : SignalConfig :=
  ⟨[], "Y".toList, none, none,
   some ⟨some "cvd".toList, some "less_than".toList, some ⟨2, 0⟩, none, none, none, none⟩,
   none, none⟩

/-- A taker-volume config with no operator and no threshold. -/
def cfgTakerVolume : SignalConfig :=
  ⟨"tv".toList, "Z".toList, none, none,
   some ⟨some "taker_volume".toList, none, none, none, none, none, none⟩,
   none, none⟩

/-- A config whose trigger condition exists but has no metric. -/
def cfgNoMetric : SignalConfig :=
  ⟨"nm".toList, "Z".toList, none, none,
   some ⟨none, some "greater_than".toList, some ⟨1, 0⟩, none, none, none, none⟩,
   none, none⟩

/-! ## Chunk invariance of the decode loop -/

/-- The streaming decoder is a byte-level state machine, so decoding a
concatenation equals decoding the parts in sequence. -/
theorem decodeChunk_append (d : DecState) (a b : List Nat) :
    decodeChunk d (a ++ b) =
      ((decodeChunk (decodeChunk d a).1 b).1,
       (decodeChunk d a).2 ++ (decodeChunk (decodeChunk d a).1 b).2) := by
  induction a generalizing d with
  | nil => simp [decodeChunk]
  | cons x xs ih =>
    simp only [List.cons_append, decodeChunk, List.append_eq]
    rw [ih]
    simp [List.append_assoc]

/-- Splitting a concatenation into complete lines: the complete lines of
`a` come first, and the remainder of `a` is prefixed onto `b` before
re-splitting — the carry-over buffer discipline. -/
theorem splitLines_append (a b : List Char) :
    splitLines (a ++ b) =
      ((splitLines a).1 ++ (splitLines ((splitLines a).2 ++ b)).1,
       (splitLines ((splitLines a).2 ++ b)).2) := by
  induction a with
  | nil => simp [splitLines]
  | cons c cs ih =>
    by_cases hc : c = '\n'
    · subst hc
      simp [splitLines, List.append_eq, ih]
    · simp only [List.cons_append, splitLines, if_neg hc, List.append_eq, ih]
      rcases h1 : (splitLines cs).1 with _ | ⟨l, ls⟩
      · rcases h2 : (splitLines ((splitLines cs).2 ++ b)).1 with _ | ⟨m, ms⟩
        · simp [splitLines, if_neg hc, h2, List.append_eq]
        · simp [splitLines, if_neg hc, h2, List.append_eq]
      · simp [h1]

/-- One loop iteration over a concatenation of two chunks equals two
iterations over the parts: the buffering discipline loses nothing at a
chunk boundary. -/
theorem feedBytes_append (st : StreamState) (a b : List Nat) :
    feedBytes (feedBytes st a) b = feedBytes st (a ++ b) := by
  simp only [feedBytes, decodeChunk_append]
  rw [← List.append_assoc, splitLines_append (st.buffer ++ (decodeChunk st.decoder a).2)]
  simp [List.foldl_append]

/-- Running the loop over any chunk sequence, started after one chunk,
is one iteration over the whole concatenation. -/
theorem runStream_join (st : StreamState) (a : List Nat) (chunks : List (List Nat)) :
    runStream (feedBytes st a) chunks = feedBytes st (a ++ chunks.flatten) := by
  induction chunks generalizing a with
  | nil => simp [runStream]
  | cons c cs ih =>
    simp only [runStream, List.foldl_cons, List.flatten_cons]
    rw [show List.foldl feedBytes (feedBytes (feedBytes st a) c) cs =
          runStream (feedBytes (feedBytes st a) c) cs from rfl,
        feedBytes_append, ih, List.append_assoc]

/-- C1: for every byte sequence and every partition of it into network
chunks (including partitions that split a line or a multi-byte
character), the stream-decode loop of `sendMessage` produces exactly
the same final session state — message list (hence content and
attached signal configs of the finalized message), aggregate config
list, adopted conversation id, toasts — as receiving the whole
sequence in one chunk. -/
theorem c1_chunk_invariance (s : SessionState) (now : Int) (utext : List Char)
    (chunks : List (List Nat)) :
    sendMessage s now utext (.success chunks) =
      sendMessage s now utext (.success [chunks.flatten]) := by
  simp only [sendMessage]
  congr 1
  cases chunks with
  | nil =>
    show runStream _ [] = runStream _ [[].flatten]
    simp only [runStream, List.foldl_nil, List.flatten_nil, List.foldl_cons]
    simp [feedBytes, decodeChunk, splitLines]
  | cons c cs =>
    show runStream _ (c :: cs) = _
    rw [show runStream ⟨initDec, [], initCore s.messages s.toasts now utext⟩ (c :: cs) =
          runStream (feedBytes ⟨initDec, [], initCore s.messages s.toasts now utext⟩ c) cs
        from rfl,
        runStream_join]
    simp [runStream, List.flatten_cons]

/-! ## The signal_config accumulator (C2) -/

/-- C2 counterexample: after a stream of two well-formed
`signal_config` records carrying configs "a" then "b", the pending
accumulator holds only the one-element array ["b"] — not both configs
in arrival order, because each record replaces the accumulator instead
of appending to it. -/
theorem c2_counterexample :
    (runStream (initStream [] [] 0 "hi".toList) [twoConfigChunk]).core.finalSignalConfigs
        = Json.arr [cfgNameB] ∧
      Json.arr [cfgNameB] ≠ Json.arr [cfgNameA, cfgNameB] := by
  refine ⟨by rfl, fun h => ?_⟩
  have hlen := congrArg (fun j => match j with | Json.arr l => l.length | _ => 0) h
  simp at hlen

/-- C2 as amended: a well-formed `signal_config` record whose truthy
config value is `cfg` REPLACES the pending accumulator with the
one-element array `[cfg]` (earlier configs are overwritten; the message
list is untouched), so after the stream ends the accumulator holds only
the most recent config. -/
theorem c2_amended_replace (c : CoreState) (jtext : List Char) (data cfg : Json)
    (hev : c.currentEventType = "signal_config".toList)
    (hparse : parseJson jtext = some data)
    (hget : data.get? "config".toList = some cfg)
    (htruthy : cfg.truthy = true) :
    (processLine c ("data: ".toList ++ jtext)).finalSignalConfigs = Json.arr [cfg] ∧
      (processLine c ("data: ".toList ++ jtext)).messages = c.messages := by
  have hpre : (("event: ".toList).isPrefixOf ("data: ".toList ++ jtext)) = false := by
    simp [List.isPrefixOf]
  have hpre2 : (("data: ".toList).isPrefixOf ("data: ".toList ++ jtext)) = true := by
    rw [ List.isPrefixOf_iff_prefix]
    exact ⟨jtext, rfl⟩
  have hdrop : ("data: ".toList ++ jtext).drop 6 = jtext := by
    simp [List.drop_left "data: ".toList jtext]
  simp only [processLine, hpre, Bool.false_eq_true, if_false, hpre2, if_true, hdrop, hparse]
  rw [hev]
  simp only [handleSSEEvent]
  rw [if_neg (by decide), if_neg (by decide), if_neg (by decide), if_pos trivial, hget]
  simp only [htruthy]
  simp [applyUpdates, Json.truthy]

/-- Witness for the amended C2 theorem at a concrete record. -/
theorem c2_amended_replace_witness :
    (processLine ⟨"signal_config".toList, [], [], .str [], .arr [cfgNameA], .null, .null, 1⟩
        ("data: ".toList ++ "\x7b\"config\":\x7b\"name\":\"b\"\x7d\x7d".toList)).finalSignalConfigs
      = Json.arr [cfgNameB] :=
  (c2_amended_replace ⟨"signal_config".toList, [], [], .str [], .arr [cfgNameA], .null, .null, 1⟩
    "\x7b\"config\":\x7b\"name\":\"b\"\x7d\x7d".toList
    (Json.obj [("config".toList, cfgNameB)]) cfgNameB rfl (by rfl) (by rfl) (by rfl)).1

/-! ## The spec's example stream (C3) -/

/-- C3: on the stream of records status:"A", content:"hello",
done:(content "hello", signal_configs [cfgC], conversation_id 7,
message_id 42), the placeholder assistant message ends with content
"hello", isStreaming = false, statusText = undefined, and the aggregate
config list contains exactly cfgC. -/
theorem c3_example_stream :
    (sendMessage emptySession 0 "hi".toList (.success [specExampleChunk])).messages =
        [tempUserMsg 0 "hi".toList,
         ⟨1, .assistant, some (.str "hello".toList), some (.arr [cfgC]), some false, none, []⟩] ∧
      (sendMessage emptySession 0 "hi".toList (.success [specExampleChunk])).allSignalConfigs
        = [cfgC] :=
  ⟨rfl, rfl⟩

/-! ## Malformed data lines (C5) -/

/-- C5: a record whose data line is not valid JSON is skipped: for
every core state (any pending event type) the step is total (the
JSON.parse exception is caught by the empty catch), the message list,
toasts and all accumulators are unchanged, and only the pending event
type is reset, after which the loop continues with subsequent
records. -/
theorem c5_malformed_json_skip (c : CoreState) (jtext : List Char)
    (hparse : parseJson jtext = none) :
    processLine c ("data: ".toList ++ jtext) = { c with currentEventType := [] } := by
  have hpre : (("event: ".toList).isPrefixOf ("data: ".toList ++ jtext)) = false := by
    simp [List.isPrefixOf]
  have hpre2 : (("data: ".toList).isPrefixOf ("data: ".toList ++ jtext)) = true := by
    rw [ List.isPrefixOf_iff_prefix]
    exact ⟨jtext, rfl⟩
  have hdrop : ("data: ".toList ++ jtext).drop 6 = jtext := by
    simp [List.drop_left "data: ".toList jtext]
  simp only [processLine, hpre, Bool.false_eq_true, if_false, hpre2, if_true, hdrop, hparse]

/-- Witness for C5 at a concrete malformed record (the data line
holds the invalid document consisting of one opening brace). -/
theorem c5_malformed_json_skip_witness :
    processLine (initCore [] [] 0 "hi".toList) ("data: ".toList ++ "\x7b".toList)
      = { initCore [] [] 0 "hi".toList with currentEventType := [] } :=
  c5_malformed_json_skip (initCore [] [] 0 "hi".toList) "\x7b".toList (by rfl)

/-! ## Card validity (C6) -/

/-- C6: the computed validity of a card equals the spec's definition,
for single-signal configs and for pools; in particular a condition
without a metric is never valid, and a taker_volume condition is valid
with no operator and no threshold. -/
theorem c6_validity_refinement (config : SignalConfig) :
    (isValidSignal config = specValidSignal config ∧
     isValidPool config = specValidPool config) ∧
    ((config.trigger_condition.getD emptyCond).metric = none →
      isValidSignal config = false) ∧
    ((config.trigger_condition.getD emptyCond).metric = some "taker_volume".toList →
      isValidSignal config = true) := by
  refine ⟨⟨?_, ?_⟩, ?_, ?_⟩
  · cases h : config.trigger_condition with
    | none => simp [isValidSignal, specValidSignal, h, emptyCond, strTruthy]
    | some cond =>
      cases hm : cond.metric with
      | none => simp [isValidSignal, specValidSignal, h, hm, strTruthy]
      | some m => simp [isValidSignal, specValidSignal, h, hm, strTruthy]
  · cases h : config.signals with
    | none => simp [isValidPool, specValidPool, h]
    | some sigs => cases sigs <;> simp [isValidPool, specValidPool, h]
  · intro hm
    cases h : config.trigger_condition with
    | none => simp [isValidSignal, h, emptyCond, strTruthy]
    | some cond =>
      rw [h] at hm
      simp at hm
      simp [isValidSignal, h, hm, strTruthy]
  · intro hm
    cases h : config.trigger_condition with
    | none => rw [h] at hm; simp [emptyCond] at hm
    | some cond =>
      rw [h] at hm
      simp at hm
      simp [isValidSignal, h, hm, strTruthy]

/-- Witness for C6 at two concrete configs: the taker-volume config
with no operator and threshold is valid; the config with a condition
but no metric is invalid. -/
theorem c6_validity_refinement_witness :
    isValidSignal cfgTakerVolume = true ∧ isValidSignal cfgNoMetric = false :=
  ⟨(c6_validity_refinement cfgTakerVolume).2.2 (by rfl),
   (c6_validity_refinement cfgNoMetric).2.1 (by rfl)⟩

/-! ## Trades list (C9) -/

/-- C9: the trade list renderer shows at most the first 20 trades and
the shown list is a prefix of the input (same relative order, no
reordering, no duplication). -/
theorem c9_trades_prefix (trades : List ArenaTrade) :
    renderTrades trades = trades.take 20 ∧
      (renderTrades trades).length ≤ 20 ∧
      renderTrades trades <+: trades := by
  refine ⟨rfl, ?_, ?_⟩
  · simp [renderTrades, List.length_take_le]
  · exact List.take_prefix 20 trades

/-! ## Create lifecycle (C10) -/

/-- C10: whatever the create callback does (resolves true, resolves
false, or rejects), after `handleCreate` completes the card's key is
absent from the creating set, and the created set only grows: the key
is added exactly when the callback resolves true, and no key is ever
removed. -/
theorem c10_create_lifecycle (ps : PanelState) (configs : List SignalConfig)
    (config : SignalConfig) (o : CreateOutcome) :
    signalKeyOf configs config ∉ (handleCreate ps configs config o).creatingSignals ∧
      ps.createdSignals ⊆ (handleCreate ps configs config o).createdSignals ∧
      (handleCreate ps configs config o).createdSignals =
        (if o = .resolveTrue then insert (signalKeyOf configs config) ps.createdSignals
         else ps.createdSignals) := by
  cases o <;>
    simp [handleCreate, Finset.not_mem_erase, Finset.subset_insert]

/-! ## Per-card creation keys (C7) -/

/-- Code of a decimal digit character. -/
theorem digitCh_toNat (d : Nat) (h : d < 10) : (digitCh d).toNat = 48 + d := by
  interval_cases d <;> rfl

/-- Peeling the last digit off a decimal rendering. -/
theorem charsVal_append_one (xs : List Char) (c : Char) :
    charsVal (xs ++ [c]) = 10 * charsVal xs + (c.toNat - 48) := by
  simp [charsVal, List.foldl_append]

/-- `charsVal` is a left inverse of the decimal rendering. -/
theorem charsVal_natToChars (n : Nat) : charsVal (natToChars n) = n := by
  induction n using Nat.strong_induction_on with
  | _ n ih =>
    by_cases h : n < 10
    · rw [natToChars, dif_pos h]
      have hd := digitCh_toNat n h
      simp [charsVal, hd]
    · rw [natToChars, dif_neg h]
      rw [charsVal_append_one, ih (n / 10) (Nat.div_lt_self (by omega) (by omega))]
      have hd := digitCh_toNat (n % 10) (Nat.mod_lt n (by omega))
      omega

/-- Decimal renderings of distinct naturals are distinct. -/
theorem natToChars_injective : Function.Injective natToChars := fun a b h => by
  have hv := congrArg charsVal h
  rwa [charsVal_natToChars, charsVal_natToChars] at hv

/-- C7 counterexample: two distinct configs (same name "a", different
symbols and conditions) sitting in the same list receive the same
per-card creation key, so their creating/created status is shared —
the claimed distinctness fails for every pair of distinct configs
whose names collide. -/
theorem c7_counterexample :
    keyAt [cfgSigAX, cfgSigAY] 0 = keyAt [cfgSigAX, cfgSigAY] 1 ∧
      ([cfgSigAX, cfgSigAY] : List SignalConfig)[0]? ≠
        ([cfgSigAX, cfgSigAY] : List SignalConfig)[1]? := by
  exact ⟨rfl, by decide⟩

/-- C7 as amended: per-card keys are distinct for a pair of configs at
distinct positions when both are unnamed (positional fallback keys
differ) or both are named with distinct names; two distinct configs
sharing a name — or a config named exactly like another card's
positional fallback key — share a key, and then marking one card
creating/created affects the other. -/
theorem c7_amended_keys (configs : List SignalConfig) (i j : Nat)
    (ci cj : SignalConfig) (hi : configs[i]? = some ci) (hj : configs[j]? = some cj)
    (hij : i ≠ j)
    (h : (ci.name = [] ∧ cj.name = []) ∨
         (ci.name ≠ [] ∧ cj.name ≠ [] ∧ ci.name ≠ cj.name)) :
    keyAt configs i ≠ keyAt configs j := by
  simp only [keyAt, hi, hj]
  rcases h with ⟨h1, h2⟩ | ⟨h1, h2, h3⟩
  · rw [if_neg (by simp [h1]), if_neg (by simp [h2])]
    intro he
    exact hij (natToChars_injective (List.append_cancel_left he))
  · rw [if_pos h1, if_pos h2]
    exact h3

/-- Witness for the amended C7 theorem: two unnamed configs at
positions 0 and 1 get distinct positional keys. -/
theorem c7_amended_keys_witness :
    keyAt [cfgUnnamedX, cfgUnnamedY] 0 ≠ keyAt [cfgUnnamedX, cfgUnnamedY] 1 :=
  c7_amended_keys [cfgUnnamedX, cfgUnnamedY] 0 1 cfgUnnamedX cfgUnnamedY rfl rfl
    (by decide) (Or.inl ⟨rfl, rfl⟩)

/-! ## Shape of one decode step (towards C4 and C8) -/

/-- Merging an update record never touches the message list. -/
theorem applyUpdates_messages (c : CoreState) (u : Updates) :
    (applyUpdates c u).messages = c.messages := by
  rcases u with ⟨uc, us, uv, um⟩
  simp only [applyUpdates]
  cases uc <;> cases us <;> cases uv <;> cases um <;> (repeat' split) <;> rfl

/-- Merging an update record never touches the placeholder id. -/
theorem applyUpdates_msgId (c : CoreState) (u : Updates) :
    (applyUpdates c u).msgId = c.msgId := by
  rcases u with ⟨uc, us, uv, um⟩
  simp only [applyUpdates]
  cases uc <;> cases us <;> cases uv <;> cases um <;> (repeat' split) <;> rfl

/-- Mapping the identity over one id is the identity. -/
theorem updMsg_id_fun (mid : Int) (msgs : List Message) :
    updMsg mid (fun m => m) msgs = msgs := by
  simp [updMsg]

/-- Every branch of the dispatcher leaves the message list of the form
`updMsg mid g` for some per-message update that preserves both the id
and the streaming flag. -/
theorem handleSSEEvent_messages (msgs : List Message) (toasts : List Json)
    (et : List Char) (data : Json) (mid : Int) :
    ∃ g : Message → Message,
      (∀ m, (g m).id = m.id) ∧ (∀ m, (g m).isStreaming = m.isStreaming) ∧
      (handleSSEEvent msgs toasts et data mid).1 = updMsg mid g msgs := by
  unfold handleSSEEvent
  by_cases h1 : et = "status".toList
  · rw [if_pos h1]
    refine ⟨_, ?_, ?_, rfl⟩ <;> exact fun m => rfl
  rw [if_neg h1]
  by_cases h2 : et = "reasoning".toList
  · rw [if_pos h2]
    refine ⟨_, ?_, ?_, rfl⟩ <;> exact fun m => rfl
  rw [if_neg h2]
  by_cases h3 : et = "content".toList
  · rw [if_pos h3]
    refine ⟨_, ?_, ?_, rfl⟩ <;> exact fun m => rfl
  rw [if_neg h3]
  by_cases h4 : et = "signal_config".toList
  · rw [if_pos h4]
    refine ⟨fun m => m, fun m => rfl, fun m => rfl, ?_⟩
    rw [updMsg_id_fun]
    rcases data.get? "config".toList with _ | cfg
    · rfl
    · by_cases hc : cfg.truthy <;> simp [hc]
  rw [if_neg h4]
  by_cases h5 : et = "done".toList
  · rw [if_pos h5]
    exact ⟨fun m => m, fun m => rfl, fun m => rfl, by rw [updMsg_id_fun]⟩
  rw [if_neg h5]
  by_cases h6 : et = "error".toList
  · rw [if_pos h6]
    exact ⟨fun m => m, fun m => rfl, fun m => rfl, by rw [updMsg_id_fun]⟩
  rw [if_neg h6]
  by_cases h7 : et = "tool_call".toList
  · rw [if_pos h7]
    refine ⟨_, ?_, ?_, rfl⟩ <;> exact fun m => rfl
  rw [if_neg h7]
  by_cases h8 : et = "tool_result".toList
  · rw [if_pos h8]
    refine ⟨_, ?_, ?_, rfl⟩ <;> exact fun m => rfl
  rw [if_neg h8]
  exact ⟨fun m => m, fun m => rfl, fun m => rfl, by rw [updMsg_id_fun]⟩

/-- One line of the loop turns the message list into `updMsg msgId g`
for some id- and streaming-flag-preserving update, and never changes
the placeholder id. -/
theorem processLine_messages (c : CoreState) (line : List Char) :
    ∃ g : Message → Message,
      (∀ m, (g m).id = m.id) ∧ (∀ m, (g m).isStreaming = m.isStreaming) ∧
      (processLine c line).messages = updMsg c.msgId g c.messages ∧
      (processLine c line).msgId = c.msgId := by
  unfold processLine
  by_cases h1 : (("event: ".toList).isPrefixOf line) = true
  · rw [if_pos h1]
    exact ⟨fun m => m, fun m => rfl, fun m => rfl, by rw [updMsg_id_fun], rfl⟩
  rw [if_neg h1]
  by_cases h2 : (("data: ".toList).isPrefixOf line) = true
  · rw [if_pos h2]
    cases hparse : parseJson (line.drop 6) with
    | none =>
      exact ⟨fun m => m, fun m => rfl, fun m => rfl, by rw [updMsg_id_fun], rfl⟩
    | some data =>
      obtain ⟨g, hid, hstr, hmsgs⟩ :=
        handleSSEEvent_messages c.messages c.toasts c.currentEventType data c.msgId
      refine ⟨g, hid, hstr, ?_, ?_⟩
      · show (applyUpdates { c with
            messages := (handleSSEEvent c.messages c.toasts c.currentEventType data c.msgId).1,
            toasts := (handleSSEEvent c.messages c.toasts c.currentEventType data c.msgId).2.1 }
            (handleSSEEvent c.messages c.toasts c.currentEventType data c.msgId).2.2).messages
          = updMsg c.msgId g c.messages
        rw [applyUpdates_messages]
        exact hmsgs
      · show (applyUpdates { c with
            messages := (handleSSEEvent c.messages c.toasts c.currentEventType data c.msgId).1,
            toasts := (handleSSEEvent c.messages c.toasts c.currentEventType data c.msgId).2.1 }
            (handleSSEEvent c.messages c.toasts c.currentEventType data c.msgId).2.2).msgId
          = c.msgId
        rw [applyUpdates_msgId]
  rw [if_neg h2]
  exact ⟨fun m => m, fun m => rfl, fun m => rfl, by rw [updMsg_id_fun], rfl⟩

/-- Updating the message with a given id does not change the sublist of
messages selected by a predicate that rejects that id. -/
theorem filter_updMsg (p : Message → Bool) (mid : Int) (g : Message → Message)
    (hg : ∀ m, (g m).id = m.id) (hp : ∀ m, m.id = mid → p m = false)
    (msgs : List Message) :
    (updMsg mid g msgs).filter p = msgs.filter p := by
  induction msgs with
  | nil => rfl
  | cons m ms ih =>
    simp only [updMsg, List.map_cons, List.filter_cons] at *
    by_cases hid : m.id = mid
    · rw [if_pos hid]
      have h1 : p (g m) = false := hp _ (by rw [hg]; exact hid)
      have h2 : p m = false := hp _ hid
      simp only [h1, h2, Bool.false_eq_true, if_false]
      exact ih
    · rw [if_neg hid]
      cases hpm : p m <;> simp only [Bool.false_eq_true, if_false, if_true] <;> rw [ih]

/-- Updating the message with a given id preserves the id and
streaming-flag profile of the list. -/
theorem updMsg_pairs (mid : Int) (g : Message → Message)
    (hid : ∀ m, (g m).id = m.id) (hstr : ∀ m, (g m).isStreaming = m.isStreaming)
    (msgs : List Message) :
    (updMsg mid g msgs).map (fun m => (m.id, m.isStreaming)) =
      msgs.map (fun m => (m.id, m.isStreaming)) := by
  induction msgs with
  | nil => rfl
  | cons m ms ih =>
    simp only [updMsg, List.map_cons] at *
    rw [ih]
    by_cases h : m.id = mid
    · rw [if_pos h, hid, hstr]
    · rw [if_neg h]

/-- Folding the line processor preserves the filtered message list (for
predicates rejecting the placeholder id), the id/streaming profile and
the placeholder id. -/
theorem foldl_processLine_inv (p : Message → Bool) (c : CoreState)
    (lines : List (List Char)) (hp : ∀ m, m.id = c.msgId → p m = false) :
    (lines.foldl processLine c).messages.filter p = c.messages.filter p ∧
      (lines.foldl processLine c).messages.map (fun m => (m.id, m.isStreaming)) =
        c.messages.map (fun m => (m.id, m.isStreaming)) ∧
      (lines.foldl processLine c).msgId = c.msgId := by
  induction lines generalizing c with
  | nil => exact ⟨rfl, rfl, rfl⟩
  | cons l ls ih =>
    obtain ⟨g, hid, hstr, hmsgs, hmid⟩ := processLine_messages c l
    obtain ⟨ih1, ih2, ih3⟩ := ih (processLine c l) (by rw [hmid]; exact hp)
    refine ⟨?_, ?_, ?_⟩
    · rw [List.foldl_cons] at *
      rw [ih1, hmsgs, filter_updMsg p c.msgId g hid hp]
    · rw [List.foldl_cons] at *
      rw [ih2, hmsgs, updMsg_pairs c.msgId g hid hstr]
    · rw [List.foldl_cons] at *
      rw [ih3, hmid]

/-- The same invariants across whole chunks of the stream. -/
theorem runStream_inv (p : Message → Bool) (st : StreamState)
    (chunks : List (List Nat)) (hp : ∀ m, m.id = st.core.msgId → p m = false) :
    (runStream st chunks).core.messages.filter p = st.core.messages.filter p ∧
      (runStream st chunks).core.messages.map (fun m => (m.id, m.isStreaming)) =
        st.core.messages.map (fun m => (m.id, m.isStreaming)) ∧
      (runStream st chunks).core.msgId = st.core.msgId := by
  induction chunks generalizing st with
  | nil => exact ⟨rfl, rfl, rfl⟩
  | cons bs cs ih =>
    have hfeed : (feedBytes st bs).core =
        ((splitLines (st.buffer ++ (decodeChunk st.decoder bs).2)).1).foldl processLine st.core :=
      rfl
    obtain ⟨f1, f2, f3⟩ := foldl_processLine_inv p st.core
      ((splitLines (st.buffer ++ (decodeChunk st.decoder bs).2)).1) hp
    obtain ⟨i1, i2, i3⟩ := ih (feedBytes st bs) (by rw [hfeed, f3]; exact hp)
    refine ⟨?_, ?_, ?_⟩
    · rw [show runStream st (bs :: cs) = runStream (feedBytes st bs) cs from rfl,
          i1, hfeed, f1]
    · rw [show runStream st (bs :: cs) = runStream (feedBytes st bs) cs from rfl,
          i2, hfeed, f2]
    · rw [show runStream st (bs :: cs) = runStream (feedBytes st bs) cs from rfl,
          i3, hfeed, f3]

/-! ## Failure rollback (C4) -/

/-- C4: on every request-level failure (non-OK response, missing body,
network error before reading, or a stream error after any number of
chunks), both optimistically appended messages are removed — the
message list is exactly restored to its pre-send contents (the
timestamp-generated ids are assumed fresh, as produced) — and the error
toast is raised as the last notification; no half-streamed assistant
message remains. -/
theorem c4_failure_rollback (s : SessionState) (now : Int) (utext : List Char)
    (o : SendOutcome) (hfail : o.isFailure = true)
    (hfresh : ∀ m ∈ s.messages, m.id ≠ now ∧ m.id ≠ now + 1) :
    (sendMessage s now utext o).messages = s.messages ∧
      (sendMessage s now utext o).toasts.getLast? = some failToast := by
  have hp : ∀ m : Message, m.id = now + 1 →
      (decide (m.id ≠ now) && decide (m.id ≠ now + 1)) = false := by
    intro m hm
    simp [hm]
  have hself : List.filter (fun m => decide (m.id ≠ now) && decide (m.id ≠ now + 1))
      s.messages = s.messages := by
    apply List.filter_eq_self.mpr
    intro m hm
    have h := hfresh m hm
    simp [h.1, h.2]
  have htemp : dropTempMsgs now
      (s.messages ++ [tempUserMsg now utext, tempAssistantMsg now]) = s.messages := by
    simp only [dropTempMsgs, List.filter_append, hself]
    simp [tempUserMsg, tempAssistantMsg]
  cases o with
  | success chunks => simp [SendOutcome.isFailure] at hfail
  | httpError =>
    exact ⟨htemp, by show (s.toasts ++ [failToast]).getLast? = some failToast; simp⟩
  | noBody =>
    exact ⟨htemp, by show (s.toasts ++ [failToast]).getLast? = some failToast; simp⟩
  | networkError =>
    exact ⟨htemp, by show (s.toasts ++ [failToast]).getLast? = some failToast; simp⟩
  | streamError chunks =>
    obtain ⟨f1, _, _⟩ := runStream_inv
      (fun m => decide (m.id ≠ now) && decide (m.id ≠ now + 1))
      ⟨initDec, [], initCore s.messages s.toasts now utext⟩ chunks
      (fun m hm => hp m hm)
    refine ⟨?_, by
      show ((runStream ⟨initDec, [], initCore s.messages s.toasts now utext⟩
          chunks).core.toasts ++ [failToast]).getLast? = some failToast
      simp⟩
    show dropTempMsgs now
        (runStream ⟨initDec, [], initCore s.messages s.toasts now utext⟩ chunks).core.messages
      = s.messages
    unfold dropTempMsgs
    rw [f1]
    exact htemp

/-- Witness for C4 at a concrete failing send from a fresh session. -/
theorem c4_failure_rollback_witness :
    (sendMessage emptySession 0 "hi".toList .networkError).messages = [] ∧
      (sendMessage emptySession 0 "hi".toList .networkError).toasts.getLast? = some failToast :=
  c4_failure_rollback emptySession 0 "hi".toList .networkError rfl
    (by intro m hm; simp [emptySession] at hm)

/-! ## Single streaming placeholder (C8) -/

/-- C8: starting a send from a session whose messages are not streaming
(and do not collide with the placeholder id), in every state reachable
by the decode loop at most one message has its streaming flag set, any
streaming message is exactly the placeholder whose id was fixed at send
time (user-message id + 1), and every message other than the
placeholder — the prior transcript and the new user message — is left
untouched by all stream events. -/
theorem c8_single_streaming (pre : List Message) (toasts : List Json) (now : Int)
    (utext : List Char) (chunks : List (List Nat))
    (hstream : ∀ m ∈ pre, m.isStreaming ≠ some true)
    (hid : ∀ m ∈ pre, m.id ≠ now + 1) :
    (∀ m ∈ (runStream (initStream pre toasts now utext) chunks).core.messages,
        m.isStreaming = some true → m.id = now + 1) ∧
      (runStream (initStream pre toasts now utext) chunks).core.messages.countP
          (fun m => decide (m.isStreaming = some true)) ≤ 1 ∧
      (runStream (initStream pre toasts now utext) chunks).core.messages.filter
          (fun m => decide (m.id ≠ now + 1)) = pre ++ [tempUserMsg now utext] := by
  obtain ⟨f1, f2, f3⟩ := runStream_inv (fun m => decide (m.id ≠ now + 1))
    (initStream pre toasts now utext) chunks
    (fun m hm => by
      rw [show (initStream pre toasts now utext).core.msgId = now + 1 from rfl] at hm
      simp [hm])
  have hinit : (initStream pre toasts now utext).core.messages =
      pre ++ [tempUserMsg now utext, tempAssistantMsg now] := rfl
  refine ⟨?_, ?_, ?_⟩
  · intro m hm hstrm
    have hmem : (m.id, m.isStreaming) ∈
        (runStream (initStream pre toasts now utext) chunks).core.messages.map
          (fun m => (m.id, m.isStreaming)) :=
      List.mem_map_of_mem _ hm
    rw [f2, hinit] at hmem
    obtain ⟨m', hm', heq⟩ := List.mem_map.mp hmem
    have hid' : m'.id = m.id := congrArg Prod.fst heq
    have hstr' : m'.isStreaming = m.isStreaming := congrArg Prod.snd heq
    rcases List.mem_append.mp hm' with hp | hu
    · exact absurd (hstr'.trans hstrm) (hstream m' hp)
    · simp only [List.mem_cons, List.mem_singleton, List.not_mem_nil, or_false] at hu
      rcases hu with hu | hu
      · rw [hu] at hstr'
        rw [hstrm] at hstr'
        exact absurd hstr'.symm (by simp [tempUserMsg])
      · rw [hu] at hid'
        rw [← hid']
        rfl
  · have e1 : (runStream (initStream pre toasts now utext) chunks).core.messages.countP
        (fun m => decide (m.isStreaming = some true)) =
        ((runStream (initStream pre toasts now utext) chunks).core.messages.map
          (fun m => (m.id, m.isStreaming))).countP
            (fun q => decide (q.2 = some true)) := by
      rw [List.countP_map]
      rfl
    have e2 : (pre ++ [tempUserMsg now utext, tempAssistantMsg now]).countP
        (fun m => decide (m.isStreaming = some true)) =
        ((pre ++ [tempUserMsg now utext, tempAssistantMsg now]).map
          (fun m => (m.id, m.isStreaming))).countP
            (fun q => decide (q.2 = some true)) := by
      rw [List.countP_map]
      rfl
    rw [e1, f2, hinit, ← e2, List.countP_append]
    have hpre0 : pre.countP (fun m => decide (m.isStreaming = some true)) = 0 := by
      rw [List.countP_eq_zero]
      intro m hm
      simp [hstream m hm]
    rw [hpre0]
    simp [List.countP_cons, tempUserMsg, tempAssistantMsg]
  · rw [f1, hinit, List.filter_append]
    have hpre : pre.filter (fun m => decide (m.id ≠ now + 1)) = pre :=
      List.filter_eq_self.mpr (fun m hm => by simp [hid m hm])
    rw [hpre]
    simp [tempUserMsg, tempAssistantMsg]

/-- Witness for C8: a fresh session and the spec's example stream. -/
theorem c8_single_streaming_witness :
    (∀ m ∈ (runStream (initStream [] [] 0 "hi".toList) [specExampleChunk]).core.messages,
        m.isStreaming = some true → m.id = 0 + 1) ∧
      (runStream (initStream [] [] 0 "hi".toList) [specExampleChunk]).core.messages.countP
          (fun m => decide (m.isStreaming = some true)) ≤ 1 ∧
      (runStream (initStream [] [] 0 "hi".toList) [specExampleChunk]).core.messages.filter
          (fun m => decide (m.id ≠ 0 + 1)) = [] ++ [tempUserMsg 0 "hi".toList] :=
  c8_single_streaming [] [] 0 "hi".toList [specExampleChunk]
    (by intro m hm; simp at hm) (by intro m hm; simp at hm)
